import Mathlib

/-!
Verification of the ingredient-to-product matching and waste-aware ranking
pipeline of the BEP_RECIPE_MATCHING repository.

The Python notebooks are shallowly embedded: dataframes become lists of
structures, numeric columns become rationals (floats are modelled exactly as
rationals), nullable columns become Option, and each notebook cell that the
claims depend on becomes a Lean definition carrying the cell name.
-/

namespace RecipeMatching

/- ## Python rounding

The notebooks call round(x, 2) on scores.  Python rounds half to even; we
model it exactly on rationals. -/

/-- Python round to the nearest integer, halves to even. -/
def pyRoundHalfEven (x : ℚ) : ℤ :=
  if x - ⌊x⌋ < 1/2 then ⌊x⌋
  else if (1:ℚ)/2 < x - ⌊x⌋ then ⌊x⌋ + 1
  else if 2 ∣ ⌊x⌋ then ⌊x⌋ else ⌊x⌋ + 1

/-- Python round(x, 2): round half to even at two decimal places. -/
def pyRound2 (x : ℚ) : ℚ := (pyRoundHalfEven (x * 100) : ℚ) / 100

theorem pyRoundHalfEven_add_even_int (x : ℚ) (k : ℤ) (hk : 2 ∣ k) :
    pyRoundHalfEven (x + k) = pyRoundHalfEven x + k := by
  unfold pyRoundHalfEven
  have hfl : ⌊x + (k : ℚ)⌋ = ⌊x⌋ + k := by
    exact_mod_cast Int.floor_add_int x k
  rw [hfl]
  have hsub : x + (k : ℚ) - ((⌊x⌋ + k : ℤ) : ℚ) = x - (⌊x⌋ : ℚ) := by
    push_cast
    ring
  rw [hsub]
  by_cases h1 : x - (⌊x⌋ : ℚ) < 1/2
  · rw [if_pos h1, if_pos h1]
  · rw [if_neg h1, if_neg h1]
    by_cases h2 : (1:ℚ)/2 < x - (⌊x⌋ : ℚ)
    · rw [if_pos h2, if_pos h2]
      ring
    · rw [if_neg h2, if_neg h2]
      by_cases h4 : (2:ℤ) ∣ ⌊x⌋
      · rw [if_pos (show (2:ℤ) ∣ ⌊x⌋ + k by omega), if_pos h4]
      · rw [if_neg (show ¬ (2:ℤ) ∣ ⌊x⌋ + k by omega), if_neg h4]
        ring

/- ## Recipe Ranking Engine: boosted score (notebook 20, src/unnamed/part_005)

Priority boosting weights of the cell that computes df_full final_score. -/

/-- WEIGHT_FUZZY = 0.6 from the boosting cell. -/
def WEIGHT_FUZZY : ℚ := 6/10

/-- WEIGHT_SEMANTIC = 0.4 from the boosting cell. -/
def WEIGHT_SEMANTIC : ℚ := 4/10

/-- PRIORITY_BONUS = 5 (additive) from the boosting cell. -/
def PRIORITY_BONUS : ℚ := 5

/-- The df_full final_score column: WEIGHT_FUZZY * fuzzy_score
plus WEIGHT_SEMANTIC * 100 * semantic_score
plus PRIORITY_BONUS * (waste_flag + markdown_flag). -/
def final_score (fuzzy_score semantic_score waste_flag markdown_flag : ℚ) : ℚ :=
  WEIGHT_FUZZY * fuzzy_score + WEIGHT_SEMANTIC * 100 * semantic_score
    + PRIORITY_BONUS * (waste_flag + markdown_flag)

/-- The notebook then rounds the boosted score to two decimals in place. -/
def final_score_rounded (fuzzy_score semantic_score waste_flag markdown_flag : ℚ) : ℚ :=
  pyRound2 (final_score fuzzy_score semantic_score waste_flag markdown_flag)

/-- C1: for every matched pair the combined boosted score equals
0.6 * fuzzy_score + 0.4 * (100 * semantic_score) + 5 * (waste_flag + markdown_flag),
so a product flagged both waste and markdown receives exactly +10 of additive
bonus relative to the same pair with neither flag; the +10 gap survives the
final two-decimal rounding as well. -/
theorem final_score_formula :
    (∀ f s w m : ℚ, final_score f s w m = 6/10 * f + 4/10 * (100 * s) + 5 * (w + m)) ∧
    (∀ f s : ℚ, final_score f s 1 1 = final_score f s 0 0 + 10) ∧
    (∀ f s : ℚ, final_score_rounded f s 1 1 = final_score_rounded f s 0 0 + 10) := by
  refine ⟨?_, ?_, ?_⟩
  · intro f s w m
    unfold final_score WEIGHT_FUZZY WEIGHT_SEMANTIC PRIORITY_BONUS
    ring
  · intro f s
    unfold final_score WEIGHT_FUZZY WEIGHT_SEMANTIC PRIORITY_BONUS
    ring
  · intro f s
    unfold final_score_rounded pyRound2
    have h : final_score f s 1 1 = final_score f s 0 0 + 10 := by
      unfold final_score WEIGHT_FUZZY WEIGHT_SEMANTIC PRIORITY_BONUS
      ring
    rw [h]
    have h2 : (final_score f s 0 0 + 10) * 100 = final_score f s 0 0 * 100 + (1000 : ℤ) := by
      push_cast
      ring
    rw [h2, pyRoundHalfEven_add_even_int _ _ (by norm_num)]
    push_cast
    ring

/- ## Priority Scorer (src/09_prioritize_waste_aware_matching.ipynb)

waste_concepts and markdown_concepts are the dropna-unique concept columns of
the waste and markdown snapshots, taken across all stores.  Each product is
flagged by concept membership (pandas isin), and priority_score is the sum of
the two flags. -/

/-- One row of a waste or markdown snapshot: a store id and the (nullable)
ontology concept of the wasted or discounted product. -/
structure SnapshotRow where
  store : Int
  product_concept : Option String
  deriving Repr, DecidableEq

/-- A product row as flagged by notebook 09: store, article id and the
(nullable) ontology concept. -/
structure ProductConceptRow where
  store : Int
  article : Int
  product_concept : Option String
  deriving Repr, DecidableEq

/-- The dropna().unique() concept column of a snapshot, as a list of concepts
(membership is what the flags consume). -/
def snapshotConcepts (rows : List SnapshotRow) : List String :=
  (rows.map (·.product_concept)).filterMap id |>.dedup

/-- pandas isin as an integer flag: 1 when the nullable concept is a member of
the concept list, 0 otherwise (a null concept is never a member). -/
def isinFlag (concepts : List String) (c : Option String) : ℕ :=
  match c with
  | some s => if s ∈ concepts then 1 else 0
  | none => 0

/-- df_products waste_flag: concept membership in the global waste-snapshot
concept set. -/
def waste_flag (wasteRows : List SnapshotRow) (p : ProductConceptRow) : ℕ :=
  isinFlag (snapshotConcepts wasteRows) p.product_concept

/-- df_products markdown_flag: concept membership in the global
markdown-snapshot concept set. -/
def markdown_flag (mdRows : List SnapshotRow) (p : ProductConceptRow) : ℕ :=
  isinFlag (snapshotConcepts mdRows) p.product_concept

/-- df_products priority_score: the sum of the two flags. -/
def priority_score (wasteRows mdRows : List SnapshotRow) (p : ProductConceptRow) : ℕ :=
  waste_flag wasteRows p + markdown_flag mdRows p

/-- C4: the Priority Scorer is a pure function of concept membership in the two
global snapshot concept sets: waste_flag is 1 exactly when the product concept
occurs in some waste-snapshot row of any store (markdown_flag analogously),
the flags ignore the product own store, and priority_score is the sum of the
two flags, hence at most 2. -/
theorem priority_scorer_pure (wasteRows mdRows : List SnapshotRow) (p : ProductConceptRow) :
    (waste_flag wasteRows p = 1 ↔
      ∃ c, p.product_concept = some c ∧ ∃ r ∈ wasteRows, r.product_concept = some c) ∧
    (markdown_flag mdRows p = 1 ↔
      ∃ c, p.product_concept = some c ∧ ∃ r ∈ mdRows, r.product_concept = some c) ∧
    (∀ q : ProductConceptRow, q.product_concept = p.product_concept →
      waste_flag wasteRows q = waste_flag wasteRows p ∧
      markdown_flag mdRows q = markdown_flag mdRows p) ∧
    priority_score wasteRows mdRows p = waste_flag wasteRows p + markdown_flag mdRows p ∧
    priority_score wasteRows mdRows p ≤ 2 := by
  have hmem : ∀ (rows : List SnapshotRow) (c : String),
      c ∈ snapshotConcepts rows ↔ ∃ r ∈ rows, r.product_concept = some c := by
    intro rows c
    simp [snapshotConcepts]
  have hflag : ∀ (rows : List SnapshotRow) (c : Option String),
      isinFlag (snapshotConcepts rows) c = 1 ↔
        ∃ s, c = some s ∧ ∃ r ∈ rows, r.product_concept = some s := by
    intro rows c
    cases c with
    | none => simp [isinFlag]
    | some s =>
        simp only [isinFlag]
        by_cases h : s ∈ snapshotConcepts rows
        · rw [if_pos h]
          rw [hmem] at h
          exact ⟨fun _ => ⟨s, rfl, h⟩, fun _ => rfl⟩
        · rw [if_neg h]
          constructor
          · intro h0
            exact absurd h0 (by norm_num)
          · rintro ⟨t, ht, hrt⟩
            injection ht with ht
            subst ht
            exact absurd ((hmem rows s).mpr hrt) h
  have hle : ∀ (rows : List SnapshotRow) (c : Option String),
      isinFlag (snapshotConcepts rows) c ≤ 1 := by
    intro rows c
    cases c with
    | none => simp [isinFlag]
    | some s =>
        simp only [isinFlag]
        split <;> omega
  refine ⟨hflag wasteRows p.product_concept, hflag mdRows p.product_concept, ?_, rfl, ?_⟩
  · intro q hq
    unfold waste_flag markdown_flag
    rw [hq]
    exact ⟨rfl, rfl⟩
  · unfold priority_score waste_flag markdown_flag
    have h1 := hle wasteRows p.product_concept
    have h2 := hle mdRows p.product_concept
    omega

/- ## Ontology variant resolution (notebook 17, src/unnamed/part_004)

manual_variants maps each canonical concept to its variant surface forms;
variant_map inverts that nesting into variant -> concept; the notebook then
builds variant_to_concept by flipping variant_map key/value-wise and resolves
through it. -/

/-- The manually defined variant dictionary of notebook 17, in insertion
order. -/
def manual_variants : List (String × List String) :=
  [("strawberry", ["strawberries"]),
   ("honey", ["flower honey", "organic honey"]),
   ("tomato", ["tomatoes", "roma tomato"]),
   ("tuna", ["canned tuna", "tuna chunks"])]

/-- Python dict assignment d[k] = v: update the existing key in place or
append a new binding. -/
def dictInsert (d : List (String × String)) (k v : String) : List (String × String) :=
  if d.any (fun kv => kv.1 = k) then
    d.map (fun kv => if kv.1 = k then (k, v) else kv)
  else d ++ [(k, v)]

/-- Python dict lookup d.get(k, dflt). -/
def dictGet (d : List (String × String)) (k dflt : String) : String :=
  match d.find? (fun kv => kv.1 = k) with
  | some kv => kv.2
  | none => dflt

/-- variant_map of notebook 17: for each concept and each of its variants alt,
set variant_map[alt] = concept. -/
def variant_map : List (String × String) :=
  manual_variants.foldl
    (fun d cv => cv.2.foldl (fun d alt => dictInsert d alt cv.1) d) []

/-- variant_to_concept of notebook 17: the dict comprehension over
variant_map.items() that swaps key and value of every binding (later bindings
overwrite earlier ones with the same key). -/
def variant_to_concept : List (String × String) :=
  variant_map.foldl (fun d kv => dictInsert d kv.2 kv.1) []

/-- resolve_variant of notebook 17: look the concept up in variant_to_concept,
defaulting to the concept itself (the pd.isna guard only concerns null inputs,
which are returned unchanged and are outside this model). -/
def resolve_variant (concept : String) : String :=
  dictGet variant_to_concept concept concept

/-- C6: evaluating the code at the failing input "strawberries": because
variant_to_concept flips variant_map key/value-wise, its keys are canonical
concepts rather than variant surface forms, so resolve_variant returns
"strawberries" unchanged instead of the canonical concept "strawberry" that
the variant table records for it; the canonical form "strawberry" is instead
mapped back to the variant "strawberries". -/
theorem resolve_variant_strawberries :
    resolve_variant "strawberries" = "strawberries" ∧
    resolve_variant "strawberries" ≠ "strawberry" ∧
    resolve_variant "strawberry" = "strawberries" ∧
    dictGet variant_map "strawberries" "strawberries" = "strawberry" := by
  refine ⟨by decide, by decide, by decide, by decide⟩

/- ## Ranked output ordering

df_ranked.sort_values of part_005 sorts by store (ascending) and avg_score
(descending) and by nothing else; the box_priority sort of notebook 10 uses
the same key shape with avg_priority.  We model sort_values as a stable
insertion sort on exactly that key (pandas leaves the relative order of equal
keys unspecified; on two-row inputs numpy quicksort is an insertion sort, so
the stable determinization agrees with the observed behaviour). -/

/-- One row of the aggregated (store, recipe) ranking table. -/
structure RankedRow where
  store : Int
  recipe : String
  avg_score : ℚ
  deriving Repr, DecidableEq

/-- The sort key of sort_values with by store then avg_score, ascending then
descending: row a precedes row b when its store is smaller, or stores agree
and its score is at least as large. -/
def rankedLE (a b : RankedRow) : Prop :=
  a.store < b.store ∨ (a.store = b.store ∧ b.avg_score ≤ a.avg_score)

instance rankedLE.decRel : DecidableRel rankedLE := fun a b =>
  inferInstanceAs (Decidable (a.store < b.store ∨ (a.store = b.store ∧ b.avg_score ≤ a.avg_score)))

instance rankedLE.total : IsTotal RankedRow rankedLE := by
  constructor
  intro a b
  unfold rankedLE
  rcases lt_trichotomy a.store b.store with h | h | h
  · exact Or.inl (Or.inl h)
  · rcases le_total b.avg_score a.avg_score with hs | hs
    · exact Or.inl (Or.inr ⟨h, hs⟩)
    · exact Or.inr (Or.inr ⟨h.symm, hs⟩)
  · exact Or.inr (Or.inl h)

instance rankedLE.trans : IsTrans RankedRow rankedLE := by
  constructor
  intro a b c hab hbc
  unfold rankedLE at *
  rcases hab with h | ⟨he, hs⟩
  · rcases hbc with h2 | ⟨he2, _⟩
    · exact Or.inl (h.trans h2)
    · exact Or.inl (he2 ▸ h)
  · rcases hbc with h2 | ⟨he2, hs2⟩
    · exact Or.inl (he ▸ h2)
    · exact Or.inr ⟨he.trans he2, hs2.trans hs⟩

/-- The df_ranked sort of part_005: sort by store ascending, avg_score
descending (stable determinization of pandas sort_values). -/
def sort_values_ranked (l : List RankedRow) : List RankedRow :=
  List.insertionSort rankedLE l

/-- The ordering the claim asserts for equal scores within one store: rows
with the same store and the same score appear in recipe-name order. -/
def claimedTieOrder (a b : RankedRow) : Prop :=
  a.store = b.store → a.avg_score = b.avg_score → a.recipe ≤ b.recipe

/-- C8 counterexample: the ranking sort key contains no recipe-name component,
so two rows of one store with equal scores stay in input order; with the
recipes out of name order on input, the sorted output violates the claimed
recipe-name tie-break. -/
theorem ranked_sort_tie_not_by_recipe :
    sort_values_ranked [⟨1, "b", 50⟩, ⟨1, "a", 50⟩] = [⟨1, "b", 50⟩, ⟨1, "a", 50⟩] ∧
    ¬ List.Pairwise claimedTieOrder (sort_values_ranked [⟨1, "b", 50⟩, ⟨1, "a", 50⟩]) := by
  constructor
  · decide
  · intro h
    rw [show sort_values_ranked [⟨1, "b", 50⟩, ⟨1, "a", 50⟩] = [⟨1, "b", 50⟩, ⟨1, "a", 50⟩]
      from by decide] at h
    have h2 := List.rel_of_pairwise_cons h (List.mem_singleton.mpr rfl)
    have h3 : ("b" : String) ≤ "a" := h2 rfl rfl
    rw [String.le_iff_toList_le] at h3
    have h4 : ("a" : String).toList < ("b" : String).toList :=
      List.Lex.rel (by decide)
    exact absurd h4 (not_lt_of_le h3)

/-- C8 amended: the ranked output is ordered by store ascending and, within a
store, by avg_score descending, and it is a permutation of its input; rows of
one store with equal scores are not further ordered by recipe name (the sort
key does not mention the recipe). -/
theorem ranked_sort_order (l : List RankedRow) :
    List.Sorted rankedLE (sort_values_ranked l) ∧ List.Perm (sort_values_ranked l) l := by
  exact ⟨List.sorted_insertionSort rankedLE l, List.perm_insertionSort rankedLE l⟩

/- ## Recipe Ranking Engine filters

Two parallel deployment filters exist.  Notebook 20 (part_005) aggregates
df_full into df_agg and keeps pairs with coverage == 1.0 and
avg_score >= min_avg_score.  Notebook 10 keeps pairs that are fully matched
and have at least one waste- or markdown-flagged matched product. -/

/-- One row of df_full in part_005: a matched (ingredient, product) pair with
its boosted final_score and the product flags. -/
structure FullRow where
  store : Int
  recipe : String
  ingredient : String
  final_score : ℚ
  waste_flag : ℕ
  markdown_flag : ℕ
  deriving Repr, DecidableEq

/-- One row of df_recipes: a recipe and one of its ingredients. -/
structure RecipeIngredientRow where
  recipe : String
  ingredient : String
  deriving Repr, DecidableEq

/-- n_ingredients of part_005: nunique ingredients of a recipe in df_recipes. -/
def n_ingredients (recipes : List RecipeIngredientRow) (r : String) : ℕ :=
  (((recipes.filter (fun x => x.recipe = r)).map (·.ingredient)).dedup).length

/-- matched_ingredients of df_agg: nunique ingredients of the (store, recipe)
group of df_full. -/
def matched_ingredients (full : List FullRow) (s : Int) (r : String) : ℕ :=
  (((full.filter (fun x => x.store = s ∧ x.recipe = r)).map (·.ingredient)).dedup).length

/-- avg_score of df_agg: the mean final_score of the (store, recipe) group. -/
def avg_score (full : List FullRow) (s : Int) (r : String) : ℚ :=
  ((full.filter (fun x => x.store = s ∧ x.recipe = r)).map (·.final_score)).sum
    / ((full.filter (fun x => x.store = s ∧ x.recipe = r)).length : ℚ)

/-- coverage of df_agg: matched_ingredients divided by n_ingredients. -/
def coverage (full : List FullRow) (recipes : List RecipeIngredientRow)
    (s : Int) (r : String) : ℚ :=
  (matched_ingredients full s r : ℚ) / (n_ingredients recipes r : ℚ)

/-- min_avg_score = 40, the quality gate of the df_ranked filter. -/
def min_avg_score : ℚ := 40

/-- The (store, recipe) group keys of df_agg. -/
def agg_pairs (full : List FullRow) : List (Int × String) :=
  (full.map (fun x => (x.store, x.recipe))).dedup

/-- df_ranked of part_005: the group keys that pass
coverage == 1.0 and avg_score >= min_avg_score. -/
def df_ranked_pairs (full : List FullRow) (recipes : List RecipeIngredientRow) :
    List (Int × String) :=
  (agg_pairs full).filter
    (fun k => coverage full recipes k.1 k.2 = 1 ∧ min_avg_score ≤ avg_score full k.1 k.2)

/-- One row of store_recipe_matches (df_matches of notebook 10): per-store
concept availability of a recipe ingredient. -/
structure StoreMatchRow where
  store : Int
  recipe : String
  ingredient : String
  ingredient_concept : Option String
  match_available : Bool
  deriving Repr, DecidableEq

/-- One row of the dropna subset of products_with_priority taken in
notebook 10. -/
structure PriorityProductRow where
  store : Int
  article : Int
  product_concept : String
  priority_score : ℕ
  waste_flag : ℕ
  markdown_flag : ℕ
  deriving Repr, DecidableEq

/-- df_available of notebook 10: the rows with match_available True. -/
def df_available (m : List StoreMatchRow) : List StoreMatchRow :=
  m.filter (·.match_available)

/-- ingredients_per_recipe of notebook 10: nunique ingredients per recipe over
all of df_matches. -/
def ingredients_per_recipe (m : List StoreMatchRow) (r : String) : ℕ :=
  (((m.filter (fun x => x.recipe = r)).map (·.ingredient)).dedup).length

/-- The grouped nunique of notebook 10: distinct available ingredients of a
(store, recipe) pair. -/
def available_ingredients (m : List StoreMatchRow) (s : Int) (r : String) : ℕ :=
  ((((df_available m).filter (fun x => x.store = s ∧ x.recipe = r)).map (·.ingredient)).dedup).length

/-- df_complete of notebook 10: the (store, recipe) group keys of df_available
whose available ingredient count equals the recipe ingredient count. -/
def complete_pairs (m : List StoreMatchRow) : List (Int × String) :=
  (((df_available m).map (fun x => (x.store, x.recipe))).dedup).filter
    (fun k => available_ingredients m k.1 k.2 = ingredients_per_recipe m k.2)

/-- The surviving rows of df_enriched after the flagged > 0 filter: the merge
of complete pairs with df_matches and then (left) with the product subset on
store and concept keeps, for each match row of a complete pair, one row per
joined product; rows without a joined product get flag sum 0 and are removed
by the filter, so the survivors are exactly the joined (match, product) pairs
whose flag sum is positive. -/
def enriched_flagged (m : List StoreMatchRow) (prods : List PriorityProductRow) :
    List (StoreMatchRow × PriorityProductRow) :=
  (m.filter (fun x => (x.store, x.recipe) ∈ complete_pairs m)).flatMap
    (fun mr => (prods.filter
        (fun p => p.store = mr.store ∧ some p.product_concept = mr.ingredient_concept
          ∧ 0 < p.waste_flag + p.markdown_flag)).map (fun p => (mr, p)))

/-- box_priority of notebook 10: the (store, recipe) group keys of the
flag-filtered enriched rows. -/
def box_priority_pairs (m : List StoreMatchRow) (prods : List PriorityProductRow) :
    List (Int × String) :=
  ((enriched_flagged m prods).map (fun z => (z.1.store, z.1.recipe))).dedup

/-- C2 counterexample: a store whose single-ingredient recipe is fully matched
with final_score 60 and no waste or markdown flag anywhere still appears in
df_ranked of part_005, because that filter checks only coverage == 1.0 and
avg_score >= 40 and never consults the flags. -/
theorem ranked_pair_without_flags :
    (1, "r") ∈ df_ranked_pairs [⟨1, "r", "i", 60, 0, 0⟩] [⟨"r", "i"⟩] ∧
    ∀ x ∈ ([⟨1, "r", "i", 60, 0, 0⟩] : List FullRow),
      x.waste_flag = 0 ∧ x.markdown_flag = 0 := by
  constructor
  · unfold df_ranked_pairs agg_pairs
    rw [List.mem_filter]
    refine ⟨by simp, ?_⟩
    rw [decide_eq_true_eq]
    constructor
    · unfold coverage matched_ingredients n_ingredients
      norm_num [List.filter, List.dedup]
    · unfold min_avg_score avg_score
      norm_num [List.filter]
  · intro x hx
    rw [List.mem_singleton] at hx
    subst hx
    exact ⟨rfl, rfl⟩

/-- C2 amended: membership in the boosted df_ranked output of part_005 forces
coverage == 1.0 and avg_score >= min_avg_score but carries no waste or
markdown requirement, while membership in the notebook 10 mealbox-candidate
output forces full matching and at least one matched product with a positive
waste or markdown flag. -/
theorem deployment_filter_conditions (full : List FullRow)
    (recipes : List RecipeIngredientRow) (m : List StoreMatchRow)
    (prods : List PriorityProductRow) (s : Int) (r : String) :
    ((s, r) ∈ df_ranked_pairs full recipes →
      coverage full recipes s r = 1 ∧ min_avg_score ≤ avg_score full s r) ∧
    ((s, r) ∈ box_priority_pairs m prods →
      available_ingredients m s r = ingredients_per_recipe m r ∧
      ∃ mr ∈ m, mr.store = s ∧ mr.recipe = r ∧
        ∃ p ∈ prods, p.store = s ∧ some p.product_concept = mr.ingredient_concept ∧
          0 < p.waste_flag + p.markdown_flag) := by
  constructor
  · intro h
    unfold df_ranked_pairs at h
    rw [List.mem_filter] at h
    have h2 := h.2
    simp only [decide_eq_true_eq] at h2
    exact h2
  · intro h
    unfold box_priority_pairs enriched_flagged at h
    rw [List.mem_dedup] at h
    rw [List.mem_map] at h
    obtain ⟨z, hz, hkey⟩ := h
    rw [List.mem_flatMap] at hz
    obtain ⟨mr, hmr, hp⟩ := hz
    rw [List.mem_filter] at hmr
    rw [List.mem_map] at hp
    obtain ⟨p, hpmem, hzp⟩ := hp
    rw [List.mem_filter] at hpmem
    have hjoin := hpmem.2
    simp only [decide_eq_true_eq] at hjoin
    have hcomp := hmr.2
    simp only [decide_eq_true_eq] at hcomp
    subst hzp
    have hs : mr.store = s := congrArg Prod.fst hkey
    have hr : mr.recipe = r := congrArg Prod.snd hkey
    unfold complete_pairs at hcomp
    rw [List.mem_filter] at hcomp
    have hcond := hcomp.2
    simp only [decide_eq_true_eq] at hcond
    subst hs
    subst hr
    refine ⟨hcond, mr, hmr.1, rfl, rfl, p, hpmem.1, ?_, hjoin.2.1, hjoin.2.2⟩
    exact hjoin.1

/-- Witness for the amended C2 theorem: both membership hypotheses are
discharged on concrete one-row tables. -/
theorem deployment_filter_conditions_witness :
    (coverage [⟨1, "r", "i", 60, 0, 0⟩] [⟨"r", "i"⟩] 1 "r" = 1 ∧
      min_avg_score ≤ avg_score [⟨1, "r", "i", 60, 0, 0⟩] 1 "r") ∧
    (available_ingredients [⟨1, "r", "i", some "c", true⟩] 1 "r"
        = ingredients_per_recipe [⟨1, "r", "i", some "c", true⟩] "r" ∧
      ∃ mr ∈ ([⟨1, "r", "i", some "c", true⟩] : List StoreMatchRow),
        mr.store = 1 ∧ mr.recipe = "r" ∧
        ∃ p ∈ ([⟨1, 7, "c", 1, 1, 0⟩] : List PriorityProductRow),
          p.store = 1 ∧ some p.product_concept = mr.ingredient_concept ∧
            0 < p.waste_flag + p.markdown_flag) := by
  constructor
  · refine (deployment_filter_conditions [⟨1, "r", "i", 60, 0, 0⟩] [⟨"r", "i"⟩]
      [⟨1, "r", "i", some "c", true⟩] [⟨1, 7, "c", 1, 1, 0⟩] 1 "r").1 ?_
    unfold df_ranked_pairs agg_pairs
    rw [List.mem_filter]
    refine ⟨by simp, ?_⟩
    rw [decide_eq_true_eq]
    constructor
    · unfold coverage matched_ingredients n_ingredients
      norm_num [List.filter, List.dedup]
    · unfold min_avg_score avg_score
      norm_num [List.filter]
  · refine (deployment_filter_conditions [⟨1, "r", "i", 60, 0, 0⟩] [⟨"r", "i"⟩]
      [⟨1, "r", "i", some "c", true⟩] [⟨1, 7, "c", 1, 1, 0⟩] 1 "r").2 ?_
    decide

/- ## List sum helpers for the simulator aggregations -/

theorem sum_map_filter_add_not {α : Type} (p : α → Bool) (f : α → ℚ) (l : List α) :
    ((l.filter p).map f).sum + ((l.filter (fun a => !(p a))).map f).sum = (l.map f).sum := by
  induction l with
  | nil => simp
  | cons a t ih =>
      by_cases h : p a = true
      · simp [List.filter_cons, h]
        linarith [ih]
      · simp [List.filter_cons, h]
        linarith [ih]

theorem sum_map_filter_le {α : Type} (p : α → Bool) (f : α → ℚ) (l : List α)
    (hf : ∀ a ∈ l, 0 ≤ f a) :
    ((l.filter p).map f).sum ≤ (l.map f).sum := by
  induction l with
  | nil => simp
  | cons a t ih =>
      have ha := hf a (List.mem_cons_self a t)
      have ht : ∀ b ∈ t, 0 ≤ f b := fun b hb => hf b (List.mem_cons_of_mem a hb)
      by_cases h : p a = true
      · simp [List.filter_cons, h]
        linarith [ih ht]
      · simp [List.filter_cons, h]
        linarith [ih ht]

theorem sum_over_groups {α κ : Type} [DecidableEq κ] (key : α → κ) (f : α → ℚ) :
    ∀ (ks : List κ) (l : List α), ks.Nodup → (∀ a ∈ l, key a ∈ ks) →
      (ks.map (fun k => ((l.filter (fun a => key a = k)).map f).sum)).sum = (l.map f).sum := by
  intro ks
  induction ks with
  | nil =>
      intro l _ hcov
      cases l with
      | nil => simp
      | cons a t => exact absurd (hcov a (List.mem_cons_self a t)) (List.not_mem_nil _)
  | cons k ks ih =>
      intro l hnd hcov
      have hknotin : k ∉ ks := (List.nodup_cons.mp hnd).1
      have hndks : ks.Nodup := (List.nodup_cons.mp hnd).2
      set l2 := l.filter (fun a => !(decide (key a = k))) with hl2
      have hcov2 : ∀ a ∈ l2, key a ∈ ks := by
        intro a ha
        rw [hl2, List.mem_filter] at ha
        have hne : key a ≠ k := by
          intro hc
          simp [hc] at ha
        cases hcov a ha.1 with
        | head => exact absurd rfl hne
        | tail _ h => exact h
      have hsame : ∀ k2 ∈ ks,
          ((l.filter (fun a => key a = k2)).map f).sum
            = ((l2.filter (fun a => key a = k2)).map f).sum := by
        intro k2 hk2
        have hne : k2 ≠ k := fun hc => hknotin (hc ▸ hk2)
        congr 1
        rw [hl2, List.filter_filter]
        congr 1
        apply List.filter_congr
        intro a _
        by_cases h : key a = k2
        · have h2 : key a ≠ k := fun hc => hne (by rw [← h, hc])
          simp [h, h2, hne]
        · simp [h]
      rw [List.map_cons, List.sum_cons]
      rw [List.map_congr_left hsame]
      rw [ih l2 hndks hcov2]
      exact sum_map_filter_add_not (fun a => decide (key a = k)) f l

/- ## Waste Impact Simulator (src/14_simulate_waste_reduction.ipynb)

df_sim joins the deployed concepts per store onto the valid waste rows,
flags each waste row covered when its product concept is in the deployed set
of its store, aggregates the covered rows into df_savings grouped by store
and concept, and then df_totals sums df_savings per store. -/

/-- One row of df_waste_valid: the waste snapshot after dropna, with store,
normalized product concept and the two wasted quantities. -/
structure WasteRow where
  store : Int
  product_concept : String
  items_wasted : ℚ
  value_wasted : ℚ
  deriving Repr, DecidableEq

/-- One row of df_ranked_exploded: a deployed ingredient concept at a store. -/
structure DeployedRow where
  store : Int
  ingredient_concept : String
  deriving Repr, DecidableEq

/-- concepts_per_store of notebook 14: the set of deployed ingredient concepts
of one store. -/
def concepts_per_store (deployed : List DeployedRow) (s : Int) : List String :=
  (deployed.filter (fun d => d.store = s)).map (·.ingredient_concept)

/-- The covered flag of df_sim: the waste row product concept is among the
deployed concepts of its store. -/
def covered (deployed : List DeployedRow) (w : WasteRow) : Bool :=
  decide (w.product_concept ∈ concepts_per_store deployed w.store)

/-- df_covered: the covered waste rows. -/
def df_covered (deployed : List DeployedRow) (waste : List WasteRow) : List WasteRow :=
  waste.filter (covered deployed)

/-- One row of df_savings: per (store, product_concept) sums of wasted items
and value over the covered rows. -/
structure SavingsRow where
  store : Int
  product_concept : String
  items_saved : ℚ
  value_saved : ℚ
  deriving Repr, DecidableEq

/-- df_savings of notebook 14: group the covered rows by (store,
product_concept) and sum the two wasted quantities per group. -/
def df_savings (deployed : List DeployedRow) (waste : List WasteRow) : List SavingsRow :=
  (((df_covered deployed waste).map (fun w => (w.store, w.product_concept))).dedup).map
    (fun k =>
      ⟨k.1, k.2,
        (((df_covered deployed waste).filter
            (fun w => (w.store, w.product_concept) = k)).map (·.items_wasted)).sum,
        (((df_covered deployed waste).filter
            (fun w => (w.store, w.product_concept) = k)).map (·.value_wasted)).sum⟩)

/-- df_totals of notebook 14: per-store sums of df_savings. -/
def total_items_saved (deployed : List DeployedRow) (waste : List WasteRow) (s : Int) : ℚ :=
  (((df_savings deployed waste).filter (fun r => r.store = s)).map (·.items_saved)).sum

/-- df_totals of notebook 14: per-store value sums of df_savings. -/
def total_value_saved (deployed : List DeployedRow) (waste : List WasteRow) (s : Int) : ℚ :=
  (((df_savings deployed waste).filter (fun r => r.store = s)).map (·.value_saved)).sum

/-- The per-store snapshot total of Items wasted. -/
def snapshot_items (waste : List WasteRow) (s : Int) : ℚ :=
  ((waste.filter (fun w => w.store = s)).map (·.items_wasted)).sum

/-- The per-store snapshot total of Value wasted. -/
def snapshot_value (waste : List WasteRow) (s : Int) : ℚ :=
  ((waste.filter (fun w => w.store = s)).map (·.value_wasted)).sum

theorem filter_key_store (l : List WasteRow) (k : Int × String) (s : Int) (hk : k.1 = s) :
    l.filter (fun w => (w.store, w.product_concept) = k)
      = (l.filter (fun w => w.store = s)).filter
          (fun w => (w.store, w.product_concept) = k) := by
  rw [List.filter_filter]
  apply List.filter_congr
  intro a _
  by_cases h : (a.store, a.product_concept) = k
  · have hs : a.store = s := by
      rw [← hk, ← h]
    simp [h, hs]
  · simp [h]

/-- The store-s slice of the per-(store, concept) grouped sums over the
covered rows adds up to the plain sum over the covered rows of store s. -/
theorem savings_store_total (deployed : List DeployedRow) (waste : List WasteRow)
    (s : Int) (f : WasteRow → ℚ) :
    (((((df_covered deployed waste).map
          (fun w => (w.store, w.product_concept))).dedup).filter (fun k => k.1 = s)).map
        (fun k => (((df_covered deployed waste).filter
            (fun w => (w.store, w.product_concept) = k)).map f).sum)).sum
      = (((df_covered deployed waste).filter (fun w => w.store = s)).map f).sum := by
  have hnd : ((((df_covered deployed waste).map
      (fun w => (w.store, w.product_concept))).dedup).filter (fun k => k.1 = s)).Nodup :=
    (List.nodup_dedup _).filter _
  have hcov : ∀ a ∈ (df_covered deployed waste).filter (fun w => w.store = s),
      (a.store, a.product_concept) ∈
        (((df_covered deployed waste).map
          (fun w => (w.store, w.product_concept))).dedup).filter (fun k => k.1 = s) := by
    intro a ha
    rw [List.mem_filter] at ha
    rw [List.mem_filter, List.mem_dedup]
    refine ⟨List.mem_map_of_mem _ ha.1, ?_⟩
    exact ha.2
  have hsame : ∀ k ∈ (((df_covered deployed waste).map
      (fun w => (w.store, w.product_concept))).dedup).filter (fun k => k.1 = s),
      (((df_covered deployed waste).filter
          (fun w => (w.store, w.product_concept) = k)).map f).sum
        = ((((df_covered deployed waste).filter (fun w => w.store = s)).filter
            (fun w => (w.store, w.product_concept) = k)).map f).sum := by
    intro k hk
    rw [List.mem_filter] at hk
    have hk1 : k.1 = s := by
      have := hk.2
      simpa using this
    rw [← filter_key_store _ _ _ hk1]
  rw [List.map_congr_left hsame]
  exact sum_over_groups (fun w => (w.store, w.product_concept)) f _ _ hnd hcov

theorem total_items_saved_eq (deployed : List DeployedRow) (waste : List WasteRow) (s : Int) :
    total_items_saved deployed waste s
      = (((df_covered deployed waste).filter (fun w => w.store = s)).map
          (·.items_wasted)).sum := by
  unfold total_items_saved df_savings
  rw [List.filter_map, List.map_map]
  exact savings_store_total deployed waste s (·.items_wasted)

theorem total_value_saved_eq (deployed : List DeployedRow) (waste : List WasteRow) (s : Int) :
    total_value_saved deployed waste s
      = (((df_covered deployed waste).filter (fun w => w.store = s)).map
          (·.value_wasted)).sum := by
  unfold total_value_saved df_savings
  rw [List.filter_map, List.map_map]
  exact savings_store_total deployed waste s (·.value_wasted)

/-- C3: for every store, the simulator per-store totals items_saved and
value_saved, computed by summing Items wasted and Value wasted over the waste
rows whose product concept is deployed at their store, never exceed the store
snapshot totals, provided the snapshot quantities are non-negative. -/
theorem simulator_savings_bounded (deployed : List DeployedRow) (waste : List WasteRow)
    (s : Int) (hitems : ∀ w ∈ waste, 0 ≤ w.items_wasted)
    (hvalue : ∀ w ∈ waste, 0 ≤ w.value_wasted) :
    total_items_saved deployed waste s ≤ snapshot_items waste s ∧
    total_value_saved deployed waste s ≤ snapshot_value waste s := by
  constructor
  · rw [total_items_saved_eq]
    unfold df_covered snapshot_items
    rw [List.filter_comm]
    apply sum_map_filter_le
    intro a ha
    exact hitems a (List.mem_of_mem_filter ha)
  · rw [total_value_saved_eq]
    unfold df_covered snapshot_value
    rw [List.filter_comm]
    apply sum_map_filter_le
    intro a ha
    exact hvalue a (List.mem_of_mem_filter ha)

/-- Witness for C3: the bound evaluated on a one-row deployment and a one-row
waste snapshot. -/
theorem simulator_savings_bounded_witness :
    total_items_saved [⟨1, "yogurt"⟩] [⟨1, "yogurt", 2, 3⟩] 1
        ≤ snapshot_items [⟨1, "yogurt", 2, 3⟩] 1 ∧
    total_value_saved [⟨1, "yogurt"⟩] [⟨1, "yogurt", 2, 3⟩] 1
        ≤ snapshot_value [⟨1, "yogurt", 2, 3⟩] 1 := by
  refine simulator_savings_bounded [⟨1, "yogurt"⟩] [⟨1, "yogurt", 2, 3⟩] 1 ?_ ?_
  · intro w hw
    rw [List.mem_singleton] at hw
    subst hw
    norm_num
  · intro w hw
    rw [List.mem_singleton] at hw
    subst hw
    norm_num

/- ## Embedding parsing and the zero-vector fallback

fix_embedding_string (src/unnamed/part_003) strips the string, replaces
whitespace runs by commas, strips the bracket characters, splits on commas
and parses each token with float(); any parse failure is caught and a
384-dimensional zero vector substituted.  compute_semantic_similarity
(src/unnamed/part_005) evaluates both embedding strings and computes cosine
similarity; any failure is caught into NaN, and the following fillna(0) turns
it into score 0.  Floats are modelled as rationals; the model parses finite
decimal and exponent literals (inf/nan spellings, which never occur in
serialized embedding vectors, are treated as unparseable). -/

/-- The whitespace class of the regex backslash-s. -/
def isPySpace (c : Char) : Bool :=
  c = ' ' ∨ c = '\t' ∨ c = '\n' ∨ c = '\x0d' ∨ c = '\x0b' ∨ c = '\x0c'

/-- Python str.strip(): remove leading and trailing whitespace. -/
def pyStrip (l : List Char) : List Char :=
  ((l.dropWhile isPySpace).reverse.dropWhile isPySpace).reverse

/-- The state-passing core of the whitespace-run substitution: the flag says
whether the previous character was inside a whitespace run. -/
def subWsCommaAux : List Char → Bool → List Char
  | [], _ => []
  | c :: rest, inWs =>
      if isPySpace c then
        if inWs then subWsCommaAux rest true
        else ',' :: subWsCommaAux rest true
      else c :: subWsCommaAux rest false

/-- re.sub of a whitespace run by a single comma. -/
def subWsComma (l : List Char) : List Char := subWsCommaAux l false

/-- The bracket characters removed by strip governed by the two-character
set. -/
def isBracketChar (c : Char) : Bool := c = '[' ∨ c = ']'

/-- Python str.strip of the bracket-character set. -/
def stripBrackets (l : List Char) : List Char :=
  ((l.dropWhile isBracketChar).reverse.dropWhile isBracketChar).reverse

/-- The natural number denoted by a digit list (most significant first). -/
def digitsToNat (l : List Char) : ℕ :=
  l.foldl (fun acc c => 10 * acc + (c.toNat - 48)) 0

/-- Python float() on one token, for finite decimal/exponent literals,
yielding the exact rational value; anything else is a parse failure. -/
def pyFloat (tok : List Char) : Option ℚ :=
  let signNeg := tok.head? = some '-'
  let l1 := if tok.head? = some '-' ∨ tok.head? = some '+' then tok.tail else tok
  let ip := l1.takeWhile Char.isDigit
  let r1 := l1.dropWhile Char.isDigit
  let hasDot := r1.head? = some '.'
  let afterDot := if hasDot then r1.tail else r1
  let fp := if hasDot then afterDot.takeWhile Char.isDigit else []
  let r2 := if hasDot then afterDot.dropWhile Char.isDigit else r1
  if ip.length = 0 ∧ fp.length = 0 then none
  else
    let mant : ℚ := (digitsToNat ip : ℚ) + (digitsToNat fp : ℚ) / ((10 : ℚ) ^ fp.length)
    let signed : ℚ := if signNeg then -mant else mant
    if r2.head? = some 'e' ∨ r2.head? = some 'E' then
      let e1 := r2.tail
      let eneg := e1.head? = some '-'
      let e2 := if e1.head? = some '-' ∨ e1.head? = some '+' then e1.tail else e1
      let ed := e2.takeWhile Char.isDigit
      let r3 := e2.dropWhile Char.isDigit
      if ed.length = 0 ∨ r3.length ≠ 0 then none
      else
        let ex : ℚ := (10 : ℚ) ^ digitsToNat ed
        some (signed * (if eneg then 1 / ex else ex))
    else if r2.length ≠ 0 then none
    else some signed

/-- Turn a list of parse results into a parsed list, failing if any token
failed (the Python map(float, ...) raises on the first bad token). -/
def seqOption : List (Option ℚ) → Option (List ℚ)
  | [] => some []
  | o :: rest =>
      match o, seqOption rest with
      | some v, some vs => some (v :: vs)
      | _, _ => none

/-- The parsing attempt inside the try of fix_embedding_string: strip,
substitute whitespace runs by commas, strip brackets, split on commas, map
float over the tokens. -/
def parseEmbedding (s : String) : Option (List ℚ) :=
  seqOption (((stripBrackets (subWsComma (pyStrip s.data))).splitOn ',').map pyFloat)

/-- fix_embedding_string of part_003 on a string cell: the parsed float list,
or the 384-dimensional zero vector when parsing raises (non-string cells are
returned unchanged by the Python function and are outside this model). -/
def fix_embedding_string (s : String) : List ℚ :=
  match parseEmbedding s with
  | some v => v
  | none => List.replicate 384 0

/-- compute_semantic_similarity of part_005 followed by the fillna(0):
evaluate both embedding strings and apply the cosine similarity function of
the library (passed as a parameter, since the fallback behaviour is
independent of it); any parse failure is caught into NaN and fillna turns it
into 0. -/
def semantic_score (cos : List ℚ → List ℚ → ℚ) (ing prod : String) : ℚ :=
  match parseEmbedding ing, parseEmbedding prod with
  | some a, some b => cos a b
  | _, _ => 0

/-- C9: a malformed (unparseable) serialized embedding never raises: the
parser substitutes the 384-dimensional zero vector, and the semantic
similarity of any row holding such a string is 0 whatever the cosine
implementation, so the batch degrades instead of crashing. -/
theorem malformed_embedding_degrades (s : String) (h : parseEmbedding s = none) :
    fix_embedding_string s = List.replicate 384 0 ∧
    (fix_embedding_string s).length = 384 ∧
    (∀ (cos : List ℚ → List ℚ → ℚ) (prod : String), semantic_score cos s prod = 0) ∧
    (∀ (cos : List ℚ → List ℚ → ℚ) (ing : String), semantic_score cos ing s = 0) := by
  refine ⟨?_, ?_, ?_, ?_⟩
  · unfold fix_embedding_string
    rw [h]
  · unfold fix_embedding_string
    rw [h]
    exact List.length_replicate 384 0
  · intro cos prod
    unfold semantic_score
    rw [h]
  · intro cos ing
    unfold semantic_score
    rw [h]
    rcases parseEmbedding ing with _ | v
    · rfl
    · rfl

/-- Witness for C9: the malformed embedding string "abc" parses to none, is
replaced by the zero vector, and scores 0. -/
theorem malformed_embedding_degrades_witness :
    fix_embedding_string "abc" = List.replicate 384 0 ∧
    semantic_score (fun _ _ => 1) "abc" "[1,2]" = 0 := by
  have h : parseEmbedding "abc" = none := by decide
  have hall := malformed_embedding_degrades "abc" h
  exact ⟨hall.1, hall.2.2.1 (fun _ _ => 1) "[1,2]"⟩

/- ## Random-matching baseline (notebooks 25 and 26, src/unnamed/part_008)

Notebook 25 walks the store-ingredient pairs of the deployment plan and, for
each pair, samples one product of that store with sample(1, random_state=42).
Notebook 26 restricts the resulting matches to the deployable (store, recipe)
pairs, inner-joins the waste snapshot on (store, product_concept) and sums
Items wasted and Value wasted per store. -/

/-- One row of products_with_priority as read by the random loop. -/
structure BaselineProductRow where
  store : Int
  article : Int
  product_name_clean : String
  product_concept : String
  deriving Repr, DecidableEq

/-- One row of recipe_store_ranked as read by notebooks 25 and 26. -/
structure RankedPairRow where
  store : Int
  recipe : String
  deriving Repr, DecidableEq

/-- One row of recipes_with_variants as used for the store-ingredient merge. -/
structure RecipeVariantRow where
  row_id : Int
  ingredient : String
  recipe : String
  deriving Repr, DecidableEq

/-- One store-ingredient pair of the merge of the ranking with the recipe
table on recipe (rows of the plan whose recipe has no recipe-table row are
dropped; such rows carry null ingredients and produce no usable match). -/
structure StoreIngredientRow where
  store : Int
  recipe : String
  row_id : Int
  ingredient : String
  deriving Repr, DecidableEq

/-- store_ingredients of notebook 25: merge store_recipes with the recipe
rows on the recipe name. -/
def store_ingredients (store_recipes : List RankedPairRow)
    (recipes : List RecipeVariantRow) : List StoreIngredientRow :=
  store_recipes.flatMap (fun sr =>
    (recipes.filter (fun rc => rc.recipe = sr.recipe)).map
      (fun rc => ⟨sr.store, sr.recipe, rc.row_id, rc.ingredient⟩))

/-- One random match row as saved by notebook 25 (match_source is the
constant "random" and is omitted). -/
structure RandomMatchRow where
  row_id : Int
  ingredient : String
  recipe : String
  store : Int
  product_article : Int
  product_name : String
  product_concept : String
  deriving Repr, DecidableEq

/-- DataFrame.sample(1, random_state) as a deterministic draw: pandas with a
fixed integer seed selects a row as a pure function of the seed and the
frame.  The Mersenne-Twister position is abstracted as seed mod length; the
ambient generator state sigma stands for whatever state an unseeded call
would consume and is used only when no random_state is passed. -/
def sampleOne {α : Type} (randomState : Option ℕ) (σ : ℕ) (rows : List α) : Option α :=
  rows.get? (randomState.getD σ % rows.length)

/-- The random match loop of notebook 25: for every store-ingredient row,
filter the products of that store, skip the row if the frame is empty, and
otherwise sample one product with random_state 42. -/
def randomMatchLoop (σ : ℕ) (si : List StoreIngredientRow)
    (products : List BaselineProductRow) : List RandomMatchRow :=
  si.filterMap (fun row =>
    match sampleOne (some 42) σ (products.filter (fun p => p.store = row.store)) with
    | none => none
    | some sampled =>
        some ⟨row.row_id, row.ingredient, row.recipe, row.store,
          sampled.article, sampled.product_name_clean, sampled.product_concept⟩)

/-- deployable_pairs of notebook 26: the distinct (store, recipe) pairs of
the ranking. -/
def deployable_pairs (ranked : List RankedPairRow) : List (Int × String) :=
  (ranked.map (fun r => (r.store, r.recipe))).dedup

/-- df_deployed of notebook 26: the matches whose (store, recipe) pair is
deployable (the inner merge with deployable_pairs). -/
def df_deployed (ms : List RandomMatchRow) (ranked : List RankedPairRow) :
    List RandomMatchRow :=
  ms.filter (fun m => (m.store, m.recipe) ∈ deployable_pairs ranked)

/-- df_simulated of notebook 26: the inner merge of the waste snapshot with
the deployed matches on (store, product_concept); each matching pair yields
one row carrying the waste quantities. -/
def df_simulated (waste : List WasteRow) (deployed : List RandomMatchRow) :
    List (Int × ℚ × ℚ) :=
  waste.flatMap (fun w =>
    (deployed.filter (fun d => d.store = w.store ∧ d.product_concept = w.product_concept)).map
      (fun _ => (w.store, w.items_wasted, w.value_wasted)))

/-- df_impact of notebook 26: per-store sums of items and value over
df_simulated, one output row per store. -/
def waste_impact_random (σ : ℕ) (store_recipes : List RankedPairRow)
    (recipes : List RecipeVariantRow) (products : List BaselineProductRow)
    (waste : List WasteRow) : List (Int × ℚ × ℚ) :=
  let sim := df_simulated waste
    (df_deployed (randomMatchLoop σ (store_ingredients store_recipes recipes) products)
      store_recipes)
  ((sim.map (fun z => z.1)).dedup).map (fun s =>
    (s, ((sim.filter (fun z => z.1 = s)).map (fun z => z.2.1)).sum,
        ((sim.filter (fun z => z.1 = s)).map (fun z => z.2.2)).sum))

/-- C7: the random baseline is reproducible: the generation reseeds every
draw with the constant 42, so the generated matches and the aggregated
(store, items_saved, value_saved) rows are the same whatever ambient
generator states two runs start from, given the same input tables. -/
theorem random_baseline_reproducible (σ₁ σ₂ : ℕ) (store_recipes : List RankedPairRow)
    (recipes : List RecipeVariantRow) (products : List BaselineProductRow)
    (waste : List WasteRow) :
    randomMatchLoop σ₁ (store_ingredients store_recipes recipes) products
        = randomMatchLoop σ₂ (store_ingredients store_recipes recipes) products ∧
    waste_impact_random σ₁ store_recipes recipes products waste
        = waste_impact_random σ₂ store_recipes recipes products waste := by
  exact ⟨rfl, rfl⟩

/-- C10: every draw of the random loop reseeds with 42 and samples from the
full product frame of the row store without reading the ingredient, so two
match rows of the same store always carry the same product. -/
theorem random_baseline_same_store_same_product (σ : ℕ) (si : List StoreIngredientRow)
    (products : List BaselineProductRow) (m₁ m₂ : RandomMatchRow)
    (h1 : m₁ ∈ randomMatchLoop σ si products) (h2 : m₂ ∈ randomMatchLoop σ si products)
    (hs : m₁.store = m₂.store) :
    m₁.product_article = m₂.product_article ∧
    m₁.product_name = m₂.product_name ∧
    m₁.product_concept = m₂.product_concept := by
  unfold randomMatchLoop at h1 h2
  rw [List.mem_filterMap] at h1 h2
  obtain ⟨r1, hr1, hf1⟩ := h1
  obtain ⟨r2, hr2, hf2⟩ := h2
  rcases hsp1 : sampleOne (some 42) σ (products.filter (fun p => p.store = r1.store))
    with _ | p1
  · rw [hsp1] at hf1
    exact absurd hf1 (by simp)
  rcases hsp2 : sampleOne (some 42) σ (products.filter (fun p => p.store = r2.store))
    with _ | p2
  · rw [hsp2] at hf2
    exact absurd hf2 (by simp)
  rw [hsp1] at hf1
  rw [hsp2] at hf2
  have hm1 : m₁ = ⟨r1.row_id, r1.ingredient, r1.recipe, r1.store,
      p1.article, p1.product_name_clean, p1.product_concept⟩ := by
    exact (Option.some_injective _ hf1).symm
  have hm2 : m₂ = ⟨r2.row_id, r2.ingredient, r2.recipe, r2.store,
      p2.article, p2.product_name_clean, p2.product_concept⟩ := by
    exact (Option.some_injective _ hf2).symm
  have hstore : r1.store = r2.store := by
    rw [hm1, hm2] at hs
    exact hs
  have hp12 : p1 = p2 := by
    have := hsp1
    rw [hstore, hsp2] at this
    exact (Option.some_injective _ this.symm)
  rw [hm1, hm2, hp12]
  exact ⟨rfl, rfl, rfl⟩

/-- Witness for C10: two ingredients of one store draw the same product. -/
theorem random_baseline_same_store_same_product_witness :
    ∃ m₁ ∈ randomMatchLoop 0
        [⟨1024, "r", 0, "yogurt"⟩, ⟨1024, "r", 1, "honey"⟩]
        [⟨1024, 5, "volle yoghurt", "yogurt"⟩, ⟨1024, 6, "bloemenhoning", "honey"⟩],
      ∃ m₂ ∈ randomMatchLoop 0
        [⟨1024, "r", 0, "yogurt"⟩, ⟨1024, "r", 1, "honey"⟩]
        [⟨1024, 5, "volle yoghurt", "yogurt"⟩, ⟨1024, 6, "bloemenhoning", "honey"⟩],
      m₁.ingredient ≠ m₂.ingredient ∧
      m₁.product_article = m₂.product_article ∧
      m₁.product_name = m₂.product_name ∧
      m₁.product_concept = m₂.product_concept := by
  refine ⟨⟨0, "yogurt", "r", 1024, 5, "volle yoghurt", "yogurt"⟩, by decide,
    ⟨1, "honey", "r", 1024, 5, "volle yoghurt", "yogurt"⟩, by decide, by decide, ?_⟩
  exact random_baseline_same_store_same_product 0
    [⟨1024, "r", 0, "yogurt"⟩, ⟨1024, "r", 1, "honey"⟩]
    [⟨1024, 5, "volle yoghurt", "yogurt"⟩, ⟨1024, 6, "bloemenhoning", "honey"⟩]
    ⟨0, "yogurt", "r", 1024, 5, "volle yoghurt", "yogurt"⟩
    ⟨1, "honey", "r", 1024, 5, "volle yoghurt", "yogurt"⟩
    (by decide) (by decide) rfl

/- ## difflib.SequenceMatcher ratio (used by fuzzy_similarity of notebook 22)

ratio is 2*M/T where M is the total size of the matching blocks found by
recursively taking the longest common substring (for the short concept
strings used here no character is junk and autojunk never fires), and T is
the total length of the two strings; for two empty strings difflib returns 1.
Ties on the longest match go to the earliest position in a, then in b. -/

/-- The length of the common prefix of two character lists. -/
def commonPrefixLen : List Char → List Char → ℕ
  | a :: as, b :: bs => if a = b then commonPrefixLen as bs + 1 else 0
  | _, _ => 0

theorem commonPrefixLen_self (a : List Char) : commonPrefixLen a a = a.length := by
  induction a with
  | nil => rfl
  | cons x t ih =>
      simp [commonPrefixLen, ih]

theorem commonPrefixLen_le_left (a b : List Char) : commonPrefixLen a b ≤ a.length := by
  induction a generalizing b with
  | nil => simp [commonPrefixLen]
  | cons x t ih =>
      cases b with
      | nil => simp [commonPrefixLen]
      | cons y u =>
          simp only [commonPrefixLen, List.length_cons]
          by_cases h : x = y
          · rw [if_pos h]
            exact Nat.succ_le_succ (ih u)
          · rw [if_neg h]
            omega

/-- All candidate matches (start in a, start in b, common run length). -/
def matchCandidates (a b : List Char) : List (ℕ × ℕ × ℕ) :=
  (List.range a.length).flatMap (fun i =>
    (List.range b.length).map (fun j => (i, j, commonPrefixLen (a.drop i) (b.drop j))))

/-- The candidate-selection step: keep the incumbent unless strictly longer
(so the earliest maximal candidate in scan order wins, as in difflib). -/
def betterMatch (best c : ℕ × ℕ × ℕ) : ℕ × ℕ × ℕ :=
  if best.2.2 < c.2.2 then c else best

/-- find_longest_match over full ranges. -/
def findLongestMatch (a b : List Char) : ℕ × ℕ × ℕ :=
  (matchCandidates a b).foldl betterMatch (0, 0, 0)

theorem foldl_betterMatch_const (cands : List (ℕ × ℕ × ℕ)) (b : ℕ × ℕ × ℕ)
    (h : ∀ c ∈ cands, c.2.2 ≤ b.2.2) : cands.foldl betterMatch b = b := by
  induction cands with
  | nil => rfl
  | cons c t ih =>
      have hc := h c (List.mem_cons_self c t)
      have hb : betterMatch b c = b := by
        unfold betterMatch
        rw [if_neg (by omega)]
      rw [List.foldl_cons, hb]
      exact ih (fun d hd => h d (List.mem_cons_of_mem c hd))

theorem foldl_betterMatch_mem (cands : List (ℕ × ℕ × ℕ)) (b : ℕ × ℕ × ℕ) :
    cands.foldl betterMatch b = b ∨ cands.foldl betterMatch b ∈ cands := by
  induction cands generalizing b with
  | nil => exact Or.inl rfl
  | cons c t ih =>
      rw [List.foldl_cons]
      rcases ih (betterMatch b c) with h | h
      · rw [h]
        unfold betterMatch
        by_cases hlt : b.2.2 < c.2.2
        · rw [if_pos hlt]
          exact Or.inr (List.mem_cons_self c t)
        · rw [if_neg hlt]
          exact Or.inl rfl
      · exact Or.inr (List.mem_cons_of_mem c h)

theorem matchCandidates_size (a b : List Char) (c : ℕ × ℕ × ℕ)
    (hc : c ∈ matchCandidates a b) :
    c.1 + c.2.2 ≤ a.length ∧ c.2.1 + c.2.2 ≤ b.length := by
  unfold matchCandidates at hc
  rw [List.mem_flatMap] at hc
  obtain ⟨i, hi, hc⟩ := hc
  rw [List.mem_map] at hc
  obtain ⟨j, hj, hc⟩ := hc
  rw [List.mem_range] at hi hj
  subst hc
  have h1 : commonPrefixLen (a.drop i) (b.drop j) ≤ a.length - i := by
    have := commonPrefixLen_le_left (a.drop i) (b.drop j)
    rwa [List.length_drop] at this
  have h2 : commonPrefixLen (a.drop i) (b.drop j) ≤ b.length - j := by
    have h3 : commonPrefixLen (b.drop j) (a.drop i) ≤ b.length - j := by
      have := commonPrefixLen_le_left (b.drop j) (a.drop i)
      rwa [List.length_drop] at this
    have h4 : ∀ (x y : List Char), commonPrefixLen x y = commonPrefixLen y x := by
      intro x
      induction x with
      | nil =>
          intro y
          cases y <;> rfl
      | cons u xs ih =>
          intro y
          cases y with
          | nil => rfl
          | cons v ys =>
              simp only [commonPrefixLen]
              by_cases h : u = v
              · rw [if_pos h, if_pos h.symm, ih]
              · rw [if_neg h, if_neg (fun hc => h hc.symm)]
    rw [h4]
    exact h3
  constructor
  · simp only []
    omega
  · simp only []
    omega

theorem findLongestMatch_valid (a b : List Char) :
    (findLongestMatch a b).1 + (findLongestMatch a b).2.2 ≤ a.length ∧
    (findLongestMatch a b).2.1 + (findLongestMatch a b).2.2 ≤ b.length := by
  rcases foldl_betterMatch_mem (matchCandidates a b) (0, 0, 0) with h | h
  · unfold findLongestMatch
    rw [h]
    simp
  · exact matchCandidates_size a b _ h

theorem foldl_betterMatch_ge (cands : List (ℕ × ℕ × ℕ)) (b : ℕ × ℕ × ℕ) :
    b.2.2 ≤ (cands.foldl betterMatch b).2.2 ∧
    ∀ c ∈ cands, c.2.2 ≤ (cands.foldl betterMatch b).2.2 := by
  induction cands generalizing b with
  | nil =>
      refine ⟨le_refl _, ?_⟩
      intro c hc
      exact absurd hc (List.not_mem_nil c)
  | cons c t ih =>
      rw [List.foldl_cons]
      obtain ⟨h1, h2⟩ := ih (betterMatch b c)
      have hb : b.2.2 ≤ (betterMatch b c).2.2 := by
        unfold betterMatch
        split <;> omega
      have hc : c.2.2 ≤ (betterMatch b c).2.2 := by
        unfold betterMatch
        split <;> omega
      refine ⟨hb.trans h1, ?_⟩
      intro d hd
      cases hd with
      | head => exact hc.trans h1
      | tail _ hmem => exact h2 d hmem

theorem findLongestMatch_self (a : List Char) (ha : a ≠ []) :
    findLongestMatch a a = (0, 0, a.length) := by
  have hmem : (0, 0, commonPrefixLen a a) ∈ matchCandidates a a := by
    unfold matchCandidates
    rw [List.mem_flatMap]
    have hlen : 0 < a.length := by
      cases a with
      | nil => exact absurd rfl ha
      | cons x t => simp
    refine ⟨0, List.mem_range.mpr hlen, ?_⟩
    rw [List.mem_map]
    exact ⟨0, List.mem_range.mpr hlen, by simp⟩
  have hsize : (findLongestMatch a a).2.2 = a.length := by
    have hub : (findLongestMatch a a).2.2 ≤ a.length := by
      have := findLongestMatch_valid a a
      omega
    have hlb := (foldl_betterMatch_ge (matchCandidates a a) (0, 0, 0)).2
      (0, 0, commonPrefixLen a a) hmem
    rw [commonPrefixLen_self] at hlb
    exact le_antisymm hub hlb
  have hv := findLongestMatch_valid a a
  have h1 : (findLongestMatch a a).1 = 0 := by omega
  have h2 : (findLongestMatch a a).2.1 = 0 := by omega
  have hsplit : findLongestMatch a a
      = ((findLongestMatch a a).1, (findLongestMatch a a).2.1,
        (findLongestMatch a a).2.2) := rfl
  rw [hsplit, h1, h2, hsize]

/-- The total size of the matching blocks: take the longest match, recurse
left of it and right of it. -/
def matchTotal (a b : List Char) : ℕ :=
  if (findLongestMatch a b).2.2 = 0 then 0
  else
    matchTotal (a.take (findLongestMatch a b).1) (b.take (findLongestMatch a b).2.1)
      + (findLongestMatch a b).2.2
      + matchTotal (a.drop ((findLongestMatch a b).1 + (findLongestMatch a b).2.2))
          (b.drop ((findLongestMatch a b).2.1 + (findLongestMatch a b).2.2))
termination_by a.length + b.length
decreasing_by
  · have hv := findLongestMatch_valid a b
    simp only [List.length_take]
    omega
  · have hv := findLongestMatch_valid a b
    simp only [List.length_drop]
    omega

theorem matchTotal_nil : matchTotal [] [] = 0 := by
  rw [matchTotal]
  rfl

theorem matchTotal_self (a : List Char) : matchTotal a a = a.length := by
  cases ha : a with
  | nil => exact matchTotal_nil
  | cons x t =>
      rw [matchTotal]
      rw [findLongestMatch_self (x :: t) (by simp)]
      simp [matchTotal_nil, List.drop_length]

theorem matchTotal_le (n : ℕ) : ∀ (a b : List Char), a.length + b.length ≤ n →
    matchTotal a b ≤ a.length ∧ matchTotal a b ≤ b.length := by
  induction n with
  | zero =>
      intro a b h
      have ha : a = [] := by
        cases a with
        | nil => rfl
        | cons x t => simp at h
      have hb : b = [] := by
        cases b with
        | nil => rfl
        | cons x t =>
            rw [ha] at h
            simp at h
      subst ha
      subst hb
      rw [matchTotal_nil]
      exact ⟨le_refl 0, le_refl 0⟩
  | succ n ih =>
      intro a b h
      rw [matchTotal]
      by_cases hk : (findLongestMatch a b).2.2 = 0
      · rw [if_pos hk]
        exact ⟨Nat.zero_le _, Nat.zero_le _⟩
      · rw [if_neg hk]
        have hv := findLongestMatch_valid a b
        have hL := ih (a.take (findLongestMatch a b).1) (b.take (findLongestMatch a b).2.1)
          (by
            simp only [List.length_take]
            omega)
        have hR := ih (a.drop ((findLongestMatch a b).1 + (findLongestMatch a b).2.2))
          (b.drop ((findLongestMatch a b).2.1 + (findLongestMatch a b).2.2))
          (by
            simp only [List.length_drop]
            omega)
        rw [List.length_take, List.length_take] at hL
        rw [List.length_drop, List.length_drop] at hR
        omega

/-- SequenceMatcher.ratio: 2*M/T, and 1 when both strings are empty. -/
def smRatio (a b : List Char) : ℚ :=
  if a.length + b.length = 0 then 1
  else 2 * (matchTotal a b : ℚ) / ((a.length : ℚ) + (b.length : ℚ))

/-- fuzzy_similarity of notebook 22: the SequenceMatcher ratio of the two
concept strings. -/
def fuzzy_similarity (a b : String) : ℚ := smRatio a.data b.data

theorem smRatio_self (a : List Char) : smRatio a a = 1 := by
  unfold smRatio
  by_cases h : a.length + a.length = 0
  · rw [if_pos h]
  · rw [if_neg h]
    rw [matchTotal_self]
    have hne : (a.length : ℚ) + (a.length : ℚ) ≠ 0 := by
      have : a.length ≠ 0 := by omega
      positivity
    field_simp
    ring

theorem smRatio_le_one (a b : List Char) : smRatio a b ≤ 1 := by
  unfold smRatio
  by_cases h : a.length + b.length = 0
  · rw [if_pos h]
  · rw [if_neg h]
    have hM := matchTotal_le (a.length + b.length) a b (le_refl _)
    have hpos : (0 : ℚ) < (a.length : ℚ) + (b.length : ℚ) := by
      have : 0 < a.length + b.length := by omega
      exact_mod_cast this
    rw [div_le_one hpos]
    have h1 : (matchTotal a b : ℚ) ≤ (a.length : ℚ) := by
      exact_mod_cast hM.1
    have h2 : (matchTotal a b : ℚ) ≤ (b.length : ℚ) := by
      exact_mod_cast hM.2
    linarith

theorem fuzzy_similarity_self (a b : String) (h : a = b) : fuzzy_similarity a b = 1 := by
  subst h
  exact smRatio_self a.data

theorem fuzzy_similarity_le_one (a b : String) : fuzzy_similarity a b ≤ 1 :=
  smRatio_le_one a.data b.data

/- ## Rounding bounds for the fuzzy score -/

theorem pyRoundHalfEven_intCast (n : ℤ) : pyRoundHalfEven (n : ℚ) = n := by
  unfold pyRoundHalfEven
  rw [Int.floor_intCast]
  rw [if_pos]
  rw [sub_self]
  norm_num

theorem pyRoundHalfEven_le_int (y : ℚ) (n : ℤ) (h : y ≤ (n : ℚ)) :
    pyRoundHalfEven y ≤ n := by
  have hfl : ⌊y⌋ ≤ n := by
    have := Int.floor_le_floor h
    rwa [Int.floor_intCast] at this
  by_cases he : ⌊y⌋ = n
  · have hy : y = (n : ℚ) := by
      refine le_antisymm h ?_
      rw [← he]
      exact Int.floor_le y
    rw [hy, pyRoundHalfEven_intCast]
  · have hlt : ⌊y⌋ < n := lt_of_le_of_ne hfl he
    unfold pyRoundHalfEven
    split_ifs <;> omega

theorem pyRound2_le_int (x : ℚ) (n : ℤ) (h : x ≤ (n : ℚ)) : pyRound2 x ≤ (n : ℚ) := by
  unfold pyRound2
  have h2 : x * 100 ≤ ((100 * n : ℤ) : ℚ) := by
    push_cast
    linarith
  have h3 := pyRoundHalfEven_le_int _ _ h2
  rw [div_le_iff₀ (by norm_num : (0:ℚ) < 100)]
  calc (pyRoundHalfEven (x * 100) : ℚ) ≤ ((100 * n : ℤ) : ℚ) := by exact_mod_cast h3
    _ = (n : ℚ) * 100 := by
        push_cast
        ring

theorem pyRound2_100 : pyRound2 100 = 100 := by
  unfold pyRound2
  have h : (100 : ℚ) * 100 = ((10000 : ℤ) : ℚ) := by norm_num
  rw [h, pyRoundHalfEven_intCast]
  norm_num

/- ## Fuzzy concept matching (notebook 22, src/unnamed/part_006) and the
score/dedup filter shape of notebook 19 (src/unnamed/part_007)

The notebook 22 loop scores every (recipe ingredient concept, store product
concept) pair with the SequenceMatcher ratio, keeps pairs with score > 0.5
and records round(score * 100, 2).  Notebook 19 then keeps, per (row_id,
store), the single highest-scoring candidate by sorting on the score
descending and dropping duplicate keys. -/

/-- One row of df_recipes in notebook 22 after the dropna and
normalization. -/
structure FuzzyRecipeRow where
  row_id : Int
  recipe : String
  ingredient_concept : String
  deriving Repr, DecidableEq

/-- One row of df_store_products in notebook 22. -/
structure StoreProductRow where
  store : Int
  product_article : Int
  product_name : String
  product_concept : String
  deriving Repr, DecidableEq

/-- One fuzzy match row as collected by the notebook 22 loop. -/
structure FuzzyMatchRow where
  row_id : Int
  recipe : String
  ingredient : String
  store : Int
  product_article : Int
  product_name : String
  product_concept : String
  fuzzy_score : ℚ
  deriving Repr, DecidableEq

/-- The match collection loop of notebook 22: every recipe row against every
store product row, keeping scores above the 0.5 threshold. -/
def fuzzy_matches (recipes : List FuzzyRecipeRow) (prods : List StoreProductRow) :
    List FuzzyMatchRow :=
  recipes.flatMap (fun r =>
    prods.filterMap (fun p =>
      if 1/2 < fuzzy_similarity r.ingredient_concept p.product_concept then
        some ⟨r.row_id, r.recipe, r.ingredient_concept, p.store, p.product_article,
          p.product_name, p.product_concept,
          pyRound2 (fuzzy_similarity r.ingredient_concept p.product_concept * 100)⟩
      else none))

/-- The dedup key of the notebook 19 drop_duplicates: (row_id, store). -/
def matchKey (m : FuzzyMatchRow) : Int × Int := (m.row_id, m.store)

/-- The descending-score sort relation of the notebook 19 sort_values. -/
def scoreGE (m n : FuzzyMatchRow) : Prop := n.fuzzy_score ≤ m.fuzzy_score

instance scoreGE.decRel : DecidableRel scoreGE := fun m n =>
  inferInstanceAs (Decidable (n.fuzzy_score ≤ m.fuzzy_score))

instance scoreGE.total : IsTotal FuzzyMatchRow scoreGE :=
  ⟨fun m n => (le_total n.fuzzy_score m.fuzzy_score).elim Or.inl Or.inr⟩

instance scoreGE.trans : IsTrans FuzzyMatchRow scoreGE :=
  ⟨fun _ _ _ h1 h2 => le_trans h2 h1⟩

/-- drop_duplicates keeping the first occurrence of each (row_id, store)
key. -/
def dropDupKeys : List FuzzyMatchRow → List (Int × Int) → List FuzzyMatchRow
  | [], _ => []
  | x :: xs, seen =>
      if matchKey x ∈ seen then dropDupKeys xs seen
      else x :: dropDupKeys xs (matchKey x :: seen)

/-- df_top of notebook 19: sort by fuzzy_score descending, then keep the
first row of each (row_id, store) key. -/
def df_top (l : List FuzzyMatchRow) : List FuzzyMatchRow :=
  dropDupKeys (List.insertionSort scoreGE l) []

theorem dropDupKeys_subset (s : List FuzzyMatchRow) (seen : List (Int × Int))
    (m : FuzzyMatchRow) (hm : m ∈ dropDupKeys s seen) : m ∈ s := by
  induction s generalizing seen with
  | nil => exact absurd hm (List.not_mem_nil m)
  | cons x xs ih =>
      unfold dropDupKeys at hm
      by_cases h : matchKey x ∈ seen
      · rw [if_pos h] at hm
        exact List.mem_cons_of_mem x (ih seen hm)
      · rw [if_neg h] at hm
        rcases List.mem_cons.mp hm with hmx | hmem
        · rw [hmx]
          exact List.mem_cons_self x xs
        · exact List.mem_cons_of_mem x (ih _ hmem)

theorem dropDupKeys_not_seen (s : List FuzzyMatchRow) (seen : List (Int × Int))
    (m : FuzzyMatchRow) (hm : m ∈ dropDupKeys s seen) : matchKey m ∉ seen := by
  induction s generalizing seen with
  | nil => exact absurd hm (List.not_mem_nil m)
  | cons x xs ih =>
      unfold dropDupKeys at hm
      by_cases h : matchKey x ∈ seen
      · rw [if_pos h] at hm
        exact ih seen hm
      · rw [if_neg h] at hm
        rcases List.mem_cons.mp hm with hmx | hmem
        · rw [hmx]
          exact h
        · have := ih _ hmem
          intro hc
          exact this (List.mem_cons_of_mem _ hc)

theorem dropDupKeys_max (s : List FuzzyMatchRow) (hs : List.Pairwise scoreGE s)
    (seen : List (Int × Int)) (m : FuzzyMatchRow) (hm : m ∈ dropDupKeys s seen) :
    ∀ m2 ∈ s, matchKey m2 = matchKey m → m2.fuzzy_score ≤ m.fuzzy_score := by
  induction s generalizing seen with
  | nil =>
      intro m2 hm2
      exact absurd hm2 (List.not_mem_nil m2)
  | cons x xs ih =>
      have hx : ∀ y ∈ xs, scoreGE x y := fun y hy => List.rel_of_pairwise_cons hs hy
      have hxs : List.Pairwise scoreGE xs := (List.pairwise_cons.mp hs).2
      unfold dropDupKeys at hm
      by_cases h : matchKey x ∈ seen
      · rw [if_pos h] at hm
        have hnm := dropDupKeys_not_seen xs seen m hm
        intro m2 hm2 hk
        rcases List.mem_cons.mp hm2 with hm2x | hmem
        · exfalso
          apply hnm
          rw [← hk, hm2x]
          exact h
        · exact ih hxs seen hm m2 hmem hk
      · rw [if_neg h] at hm
        rcases List.mem_cons.mp hm with hmx | hmem
        · intro m2 hm2 hk
          rcases List.mem_cons.mp hm2 with hm2x | hmem2
          · rw [hm2x, hmx]
          · rw [hmx]
            exact hx m2 hmem2
        · have hnm := dropDupKeys_not_seen xs _ m hmem
          have hne : matchKey m ≠ matchKey x := by
            intro hc
            exact hnm (hc ▸ List.mem_cons_self _ _)
          intro m2 hm2 hk
          rcases List.mem_cons.mp hm2 with hm2x | hmem2
          · exfalso
            apply hne
            rw [← hk, hm2x]
          · exact ih hxs _ hmem m2 hmem2 hk

/-- C5: when some product of a store has a product concept equal to the
ingredient concept, the fuzzy candidate list of notebook 22 contains that
pair with score exactly 100; every candidate score is at most 100; and every
row the notebook 19 sort/dedup filter keeps for that (ingredient row, store)
key has score exactly 100, so no fuzzy candidate overrides the exact match in
the final per-(ingredient, store) ranking. -/
theorem exact_concept_match_priority (recipes : List FuzzyRecipeRow)
    (prods : List StoreProductRow) (r : FuzzyRecipeRow) (p : StoreProductRow)
    (hr : r ∈ recipes) (hp : p ∈ prods)
    (hexact : p.product_concept = r.ingredient_concept) :
    (∃ m ∈ fuzzy_matches recipes prods,
      m.row_id = r.row_id ∧ m.store = p.store ∧
      m.product_article = p.product_article ∧ m.fuzzy_score = 100) ∧
    (∀ m ∈ fuzzy_matches recipes prods, m.fuzzy_score ≤ 100) ∧
    (∀ m ∈ df_top (fuzzy_matches recipes prods),
      m.row_id = r.row_id → m.store = p.store → m.fuzzy_score = 100) := by
  have hsim : fuzzy_similarity r.ingredient_concept p.product_concept = 1 :=
    fuzzy_similarity_self _ _ hexact.symm
  have hbound : ∀ m ∈ fuzzy_matches recipes prods, m.fuzzy_score ≤ 100 := by
    intro m hm
    unfold fuzzy_matches at hm
    rw [List.mem_flatMap] at hm
    obtain ⟨r2, _, hm⟩ := hm
    rw [List.mem_filterMap] at hm
    obtain ⟨p2, _, hm⟩ := hm
    by_cases hth : 1/2 < fuzzy_similarity r2.ingredient_concept p2.product_concept
    · rw [if_pos hth] at hm
      have hm2 := Option.some_injective _ hm
      have hscore : m.fuzzy_score
          = pyRound2 (fuzzy_similarity r2.ingredient_concept p2.product_concept * 100) := by
        rw [← hm2]
      rw [hscore]
      have hle : fuzzy_similarity r2.ingredient_concept p2.product_concept * 100
          ≤ ((100 : ℤ) : ℚ) := by
        have := fuzzy_similarity_le_one r2.ingredient_concept p2.product_concept
        push_cast
        nlinarith
      have := pyRound2_le_int _ 100 hle
      exact_mod_cast this
    · rw [if_neg hth] at hm
      exact absurd hm (by simp)
  have hmem : (⟨r.row_id, r.recipe, r.ingredient_concept, p.store, p.product_article,
      p.product_name, p.product_concept, 100⟩ : FuzzyMatchRow)
        ∈ fuzzy_matches recipes prods := by
    unfold fuzzy_matches
    rw [List.mem_flatMap]
    refine ⟨r, hr, ?_⟩
    rw [List.mem_filterMap]
    refine ⟨p, hp, ?_⟩
    rw [hsim]
    rw [if_pos (by norm_num)]
    rw [one_mul, pyRound2_100]
  refine ⟨⟨_, hmem, rfl, rfl, rfl, rfl⟩, hbound, ?_⟩
  intro m hm hid hstore
  have hsorted : List.Pairwise scoreGE (List.insertionSort scoreGE (fuzzy_matches recipes prods)) :=
    List.sorted_insertionSort scoreGE (fuzzy_matches recipes prods)
  have hperm := List.perm_insertionSort scoreGE (fuzzy_matches recipes prods)
  have hmax := dropDupKeys_max _ hsorted [] m hm
  have hexmem : (⟨r.row_id, r.recipe, r.ingredient_concept, p.store, p.product_article,
      p.product_name, p.product_concept, 100⟩ : FuzzyMatchRow)
        ∈ List.insertionSort scoreGE (fuzzy_matches recipes prods) :=
    hperm.symm.subset hmem
  have hkey : matchKey (⟨r.row_id, r.recipe, r.ingredient_concept, p.store,
      p.product_article, p.product_name, p.product_concept, 100⟩ : FuzzyMatchRow)
        = matchKey m := by
    unfold matchKey
    rw [hid, hstore]
  have hge := hmax _ hexmem hkey
  have hmm : m ∈ fuzzy_matches recipes prods :=
    hperm.subset (dropDupKeys_subset _ [] m hm)
  have hle := hbound m hmm
  exact le_antisymm hle hge

/-- Witness for C5: one ingredient concept "yogurt" and one store product with
concept "yogurt" satisfy the hypotheses. -/
theorem exact_concept_match_priority_witness :
    (∃ m ∈ fuzzy_matches [⟨2, "Greek Yogurt & Honey", "yogurt"⟩]
        [⟨1058, 427454, "Volle yoghurt", "yogurt"⟩],
      m.row_id = 2 ∧ m.store = 1058 ∧ m.product_article = 427454 ∧ m.fuzzy_score = 100) ∧
    (∀ m ∈ fuzzy_matches [⟨2, "Greek Yogurt & Honey", "yogurt"⟩]
        [⟨1058, 427454, "Volle yoghurt", "yogurt"⟩], m.fuzzy_score ≤ 100) ∧
    (∀ m ∈ df_top (fuzzy_matches [⟨2, "Greek Yogurt & Honey", "yogurt"⟩]
        [⟨1058, 427454, "Volle yoghurt", "yogurt"⟩]),
      m.row_id = 2 → m.store = 1058 → m.fuzzy_score = 100) := by
  exact exact_concept_match_priority
    [⟨2, "Greek Yogurt & Honey", "yogurt"⟩]
    [⟨1058, 427454, "Volle yoghurt", "yogurt"⟩]
    ⟨2, "Greek Yogurt & Honey", "yogurt"⟩
    ⟨1058, 427454, "Volle yoghurt", "yogurt"⟩
    (List.mem_singleton.mpr rfl) (List.mem_singleton.mpr rfl) rfl

end RecipeMatching
